import Mathlib

/-!
Verification development for the `mcp-chatkit-widget` repository.

The Python modules under `mcp_chatkit_widget/` are shallowly embedded:

* `naming.py` — `_sanitize_tool_name`, `_to_camel_case` become pure
  functions on `List Char` / `String` with ASCII character semantics.
* `widget_loader.py` — `load_widget`, `_collect_widget_files`,
  `load_widgets` become functions over an explicit file-system model;
  Python exceptions become `Except WErr`.
* `rendering.py` — `build_widget_model`, `render_widget_definition`
  (the compiled-model and template caches are performance-only and are
  embedded as the direct calls they memoise).
* `tooling.py` — `_create_widget_tool_function`, `generate_widget_tools`
  over an explicit registry.

The module `mcp_chatkit_widget/pydantic_conversion.py`
(`json_schema_to_pydantic`, i.e. the Schema-to-Model Compiler) is not
part of the sources available here — only its callers and tests are —
so it is modelled from the spec where indicated.  The external template
engine (`chatkit.widgets.WidgetTemplate`) is out of the system's scope
and appears as an opaque `TemplateEngine` parameter.
-/

/-- One less than the fuelled-recursion budget. -/
def pyFuelPred : Nat := 999

/-- Recursion budget for the fuelled recursions over JSON values and
field types below.  CPython's default recursion limit (1000) bounds the
nesting depth `json.load` can parse, so every value the Python code can
ever process fits within this budget and the fuel is never exhausted. -/
def pyRecursionFuel : Nat := pyFuelPred + 1

/-- JSON values as produced by `json.load` of a `.widget` file.
Numbers are modelled as integers; none of the verified claims depends
on fractional numerics. -/
inductive Json where
  | null : Json
  | bool (b : Bool) : Json
  | num (n : Int) : Json
  | str (s : String) : Json
  | arr (elems : List Json) : Json
  | obj (fields : List (String × Json)) : Json
deriving Repr

namespace Json

/-- Structural equality of JSON values (Python `==` on parsed JSON),
with a fuel argument that makes the nested recursion structural (the
budget covers anything `json.load` can parse). -/
def beqFuel : Nat → Json → Json → Bool
  | 0, _, _ => false
  | fuel + 1, a, b =>
      match a, b with
      | .null, .null => true
      | .bool x, .bool y => x == y
      | .num x, .num y => x == y
      | .str x, .str y => x == y
      | .arr xs, .arr ys =>
          xs.length == ys.length &&
          (List.zip xs ys).all (fun p => beqFuel fuel p.1 p.2)
      | .obj xs, .obj ys =>
          xs.length == ys.length &&
          (List.zip xs ys).all (fun p =>
            p.1.1 == p.2.1 && beqFuel fuel p.1.2 p.2.2)
      | _, _ => false

/-- Structural equality of JSON values (Python `==` on parsed JSON). -/
def beq (a b : Json) : Bool :=
  beqFuel pyRecursionFuel a b

instance : BEq Json := ⟨Json.beq⟩

/-- Association-list lookup inside a JSON object (`data["k"]` / `data.get("k")`). -/
def lookupKey : Json → String → Option Json
  | .obj kvs, k => kvs.lookup k
  | _, _ => none

/-- Python's `k in data` membership test for a parsed JSON object. -/
def hasKey (j : Json) (k : String) : Bool :=
  (j.lookupKey k).isSome

/-- Keys of a JSON object, in insertion order. -/
def keys : Json → List String
  | .obj kvs => kvs.map Prod.fst
  | _ => []

/-- Extract a string payload (`isinstance(v, str)` successful case). -/
def asString : Json → Option String
  | .str s => some s
  | _ => none

end Json

/-! ## `naming.py` — identifier normalisation

Characters are given Python's ASCII semantics: `c.lower()`,
`c.isalnum()`, `c.isdigit()`, `c.isalpha()`, `str.title()` restricted
to the ASCII plane, where they agree with CPython. -/

/-- ASCII decimal digit — Python `c.isdigit()` on ASCII. -/
def pyIsDigit (c : Char) : Bool :=
  '0' ≤ c && c ≤ '9'

/-- ASCII lowercase letter. -/
def pyIsLowerAlpha (c : Char) : Bool :=
  'a' ≤ c && c ≤ 'z'

/-- ASCII uppercase letter. -/
def pyIsUpperAlpha (c : Char) : Bool :=
  'A' ≤ c && c ≤ 'Z'

/-- ASCII letter — Python `c.isalpha()` on ASCII. -/
def pyIsAlpha (c : Char) : Bool :=
  pyIsLowerAlpha c || pyIsUpperAlpha c

/-- ASCII alphanumeric — Python `c.isalnum()` on ASCII. -/
def pyIsAlnum (c : Char) : Bool :=
  pyIsAlpha c || pyIsDigit c

/-- Python `c.lower()` on ASCII. -/
def pyLowerChar (c : Char) : Char :=
  if pyIsUpperAlpha c then Char.ofNat (c.toNat + 32) else c

/-- Python `c.upper()` on ASCII. -/
def pyUpperChar (c : Char) : Char :=
  if pyIsLowerAlpha c then Char.ofNat (c.toNat - 32) else c

/-- `str.replace(" ", "_").replace("-", "_")` acting characterwise
(the replacements are single-character, so they commute with `map`). -/
def replaceSpaceHyphen (c : Char) : Char :=
  if c = ' ' || c = '-' then '_' else c

/-- The filter `c.isalnum() or c == "_"` from `_sanitize_tool_name`. -/
def keepSanitized (c : Char) : Bool :=
  pyIsAlnum c || c = '_'

/-- `widget_name.lower().replace(" ", "_").replace("-", "_")` followed by
the keep-filter, on character lists. -/
def sanitizeCore (s : List Char) : List Char :=
  ((s.map pyLowerChar).map replaceSpaceHyphen).filter keepSanitized

/-- `_sanitize_tool_name` from `naming.py`, on character lists:
lower-case, replace spaces/hyphens with `_`, strip other
non-alphanumerics, and prepend `_` when the result starts with a digit. -/
def sanitizeToolNameList (s : List Char) : List Char :=
  match sanitizeCore s with
  | [] => []
  | c :: rest => if pyIsDigit c then '_' :: c :: rest else c :: rest

/-- `_sanitize_tool_name` from `naming.py` on `String`. -/
def sanitize_tool_name (s : String) : String :=
  ⟨sanitizeToolNameList s.data⟩

/-- Python `str.title()` on ASCII: upper-case every cased character that
follows a non-cased character, lower-case the rest.  `prevCased` records
whether the previous character was a letter. -/
def pyTitleGo : Bool → List Char → List Char
  | _, [] => []
  | prevCased, c :: cs =>
      (if prevCased then pyLowerChar c else pyUpperChar c) :: pyTitleGo (pyIsAlpha c) cs

/-- Python `str.title()` on ASCII strings. -/
def pyTitle (s : List Char) : List Char :=
  pyTitleGo false s

/-- Python `str.split("_")`: split a character list at every underscore,
keeping empty segments. -/
def splitUnderscore (s : List Char) : List (List Char) :=
  match s with
  | [] => [[]]
  | c :: cs =>
      let rest := splitUnderscore cs
      if c = '_' then
        [] :: rest
      else
        match rest with
        | [] => [[c]]
        | seg :: segs => (c :: seg) :: segs

/-- `_to_camel_case` from `naming.py`:
`"".join(x.title() for x in snake_str.split("_"))`, on character lists. -/
def toCamelCaseList (s : List Char) : List Char :=
  ((splitUnderscore s).map pyTitle).flatten

/-- `_to_camel_case` from `naming.py` on `String`. -/
def to_camel_case (s : String) : String :=
  ⟨toCamelCaseList s.data⟩

/-! ## Errors

The spec's error taxonomy (§7) mapped onto the exceptions the Python
code raises: `configError` is the `ValueError` of `_validate_widgets_dir`,
`parseError` is `json.JSONDecodeError`, `missingFields` and
`templateNotString` are the `ValueError`s of `load_widget`,
`nameNotString` is the `AttributeError` from calling `.lower()` on a
non-string widget name, `schemaError` is the compiler's failure on a
non-object root schema, `validationError` is Pydantic's
`ValidationError`, and `engineFailure` is whatever the external
template engine raises (unwrapped). -/
inductive WErr where
  | configError (msg : String)
  | parseError (path : String) (msg : String)
  | missingFields (path : String) (fields : List String)
  | templateNotString (path : String)
  | nameNotString
  | schemaError (modelName : String)
  | validationError (issues : List String)
  | engineFailure (msg : String)
deriving Repr, DecidableEq

/-! ## Schema-to-Model Compiler

`mcp_chatkit_widget/pydantic_conversion.py` is not among the available
sources (only its callers in `rendering.py` and its tests are), so the
compiler is modelled from the spec (§4.3, §9). -/

mutual

/-- Modelled from the spec: the type part of a compiled field produced
by the missing `json_schema_to_pydantic` — "string → text;
number/integer → numeric; boolean → boolean; array → sequence of the
recursively compiled items schema (absent/empty items ⇒ sequence of
untyped values); object → recursively compiled nested model;
enum/const → restricted value set or fixed literal" (§4.3), as a
tagged union (§9). -/
inductive FieldType where
  | text : FieldType
  | numeric : FieldType
  | integer : FieldType
  | boolean : FieldType
  | untyped : FieldType
  | sequence (elem : FieldType) : FieldType
  | nestedModel (name : String) (fields : List FieldSpec) : FieldType
  | enumOf (values : List Json) : FieldType
  | constOf (value : Json) : FieldType

/-- Modelled from the spec: one compiled-model field — "mapping from
field name to (type, required-flag, default value)" (§3).  `default`
is `none` for required fields (Pydantic's no-default marker) and
`some d` otherwise, with `d` null unless the schema declares one. -/
inductive FieldSpec where
  | mk (name : String) (type : FieldType) (required : Bool) (default : Option Json) : FieldSpec

end

/-- Field name of a compiled-model field. -/
def FieldSpec.name : FieldSpec → String
  | .mk n _ _ _ => n

/-- Inferred type of a compiled-model field. -/
def FieldSpec.type : FieldSpec → FieldType
  | .mk _ t _ _ => t

/-- Required flag of a compiled-model field (Pydantic `is_required()`). -/
def FieldSpec.required : FieldSpec → Bool
  | .mk _ _ r _ => r

/-- Declared default of a compiled-model field (`none` = no default). -/
def FieldSpec.default : FieldSpec → Option Json
  | .mk _ _ _ d => d

/-- The `properties` mapping of an object schema (empty when absent or
not an object). -/
def propsOf (schema : Json) : List (String × Json) :=
  match schema.lookupKey "properties" with
  | some (.obj kvs) => kvs
  | _ => []

/-- The string entries of the schema's `required` list (empty when
absent). -/
def requiredNames (schema : Json) : List String :=
  match schema.lookupKey "required" with
  | some (.arr vs) => vs.filterMap Json.asString
  | _ => []

/-- The schema-declared default of a property schema, null when absent
("its declared default is null/absent unless the schema specifies one
explicitly", §4.3). -/
def defaultOf (sub : Json) : Json :=
  match sub.lookupKey "default" with
  | some d => d
  | none => .null

/-- Name of a nested compiled model: "named by combining the parent
model name with the field name" (§4.3), via the Identifier Normalizer
(§2). -/
def nestedTypeName (parent fieldName : String) : String :=
  parent ++ to_camel_case (sanitize_tool_name fieldName)

/-- Modelled from the spec: the type derivation of
`json_schema_to_pydantic` for one property schema (§4.3).  `fuel`
bounds the recursion depth; the budget passed by the wrapper covers
anything `json.load` can parse. -/
def compileType : Nat → String → Json → FieldType
  | 0, _, _ => .untyped
  | fuel + 1, name, schema =>
      match schema.lookupKey "enum" with
      | some (.arr vs) => .enumOf vs
      | _ =>
        match schema.lookupKey "const" with
        | some v => .constOf v
        | none =>
          match schema.lookupKey "type" with
          | some (.str "string") => .text
          | some (.str "number") => .numeric
          | some (.str "integer") => .integer
          | some (.str "boolean") => .boolean
          | some (.str "array") =>
              match schema.lookupKey "items" with
              | some (.obj []) => .sequence .untyped
              | some (.obj kvs) => .sequence (compileType fuel (name ++ "Item") (.obj kvs))
              | _ => .sequence .untyped
          | some (.str "object") =>
              .nestedModel name
                ((propsOf schema).map (fun p =>
                  FieldSpec.mk p.1
                    (compileType fuel (nestedTypeName name p.1) p.2)
                    ((requiredNames schema).contains p.1)
                    (if (requiredNames schema).contains p.1 then none
                     else some (defaultOf p.2))))
          | _ => .untyped

/-- Modelled from the spec: derive one compiled field per `properties`
entry — required iff listed in `required`, default null unless
declared (§4.3). -/
def compileFields (fuel : Nat) (parent : String) (kvs : List (String × Json))
    (req : List String) : List FieldSpec :=
  kvs.map (fun p =>
    FieldSpec.mk p.1 (compileType fuel (nestedTypeName parent p.1) p.2)
      (req.contains p.1)
      (if req.contains p.1 then none else some (defaultOf p.2)))

/-- A compiled, validating input model ("Compiled Input Model", §3). -/
structure CompiledModel where
  name : String
  title : String
  fields : List FieldSpec

/-- Modelled from the spec: `json_schema_to_pydantic(schema, model_name,
schema_title)` from the missing `pydantic_conversion.py` — "root schema
must describe an object" with a `properties` mapping (§3, §4.3); on
success one field per `properties` entry. -/
def json_schema_to_pydantic (schema : Json) (modelName schemaTitle : String) :
    Except WErr CompiledModel :=
  match schema.lookupKey "type" with
  | some (.str "object") =>
      match schema.lookupKey "properties" with
      | some (.obj kvs) =>
          .ok ⟨modelName, schemaTitle,
            compileFields pyRecursionFuel modelName kvs (requiredNames schema)⟩
      | _ => .error (.schemaError modelName)
  | _ => .error (.schemaError modelName)

/-! ## `json.dumps(..., sort_keys=True)` round trip

`build_widget_model` serialises the schema with sorted keys and the
cached `_build_pydantic_model` parses it back, so the compiler sees the
schema with every object's keys sorted.  `sortKeysJson` is that round
trip. -/

/-- Key order used by `sort_keys=True`: lexicographic on code points. -/
def keyOrder (a b : String × Json) : Prop :=
  a.1.data ≤ b.1.data

instance : DecidableRel keyOrder := fun a b =>
  inferInstanceAs (Decidable (a.1.data ≤ b.1.data))

instance : IsTotal (String × Json) keyOrder :=
  ⟨fun a b => le_total a.1.data b.1.data⟩

instance : IsTrans (String × Json) keyOrder :=
  ⟨fun _ _ _ hab hbc => le_trans hab hbc⟩

/-- The `json.dumps(sort_keys=True)` / `json.loads` round trip: every
object's entries reordered by key, recursively.  The fuel makes the
nested recursion structural (the budget covers anything `json.load`
can parse). -/
def sortKeysFuel : Nat → Json → Json
  | 0, j => j
  | fuel + 1, .arr xs => .arr (xs.map (sortKeysFuel fuel))
  | fuel + 1, .obj kvs =>
      .obj (List.insertionSort keyOrder
        (kvs.map (fun p => (p.1, sortKeysFuel fuel p.2))))
  | _ + 1, j => j

/-- The `json.dumps(sort_keys=True)` / `json.loads` round trip. -/
def sortKeysJson (j : Json) : Json :=
  sortKeysFuel pyRecursionFuel j

/-! ## `widget_loader.py` — the widget definition record -/

/-- `WidgetDefinition` from `widget_loader.py`.  The loader stores the
parsed values unchanged and Python dataclasses do not enforce their
annotations, so every untouched field keeps type `Json`; only
`template` is checked to be a string by `load_widget`. -/
structure WidgetDefinition where
  name : Json
  version : Json
  json_schema : Json
  output_json_preview : Json
  template : String
  encoded_widget : Option Json
  file_path : String

/-! ## `rendering.py` — model building and rendering -/

/-- `_model_metadata` from `rendering.py`: model and schema titles from
a widget name. -/
def _model_metadata (widget_name : String) : String × String :=
  let camelName := to_camel_case (sanitize_tool_name widget_name)
  (camelName ++ "Model", camelName ++ "Arguments")

/-- `_build_pydantic_model` from `rendering.py` applied to the parsed
schema snapshot.  The `@cache` decorator only memoises this pure
function, so the embedding is the direct call. -/
def _build_pydantic_model (schemaSorted : Json) (widget_name : String) :
    Except WErr CompiledModel :=
  json_schema_to_pydantic schemaSorted (_model_metadata widget_name).1
    (_model_metadata widget_name).2

/-- `build_widget_model` from `rendering.py`: serialise the schema with
sorted keys and compile the parsed snapshot.  A non-string widget name
makes `_sanitize_tool_name` throw (`nameNotString`). -/
def build_widget_model (wd : WidgetDefinition) : Except WErr CompiledModel :=
  match wd.name.asString with
  | none => .error .nameNotString
  | some n => _build_pydantic_model (sortKeysJson wd.json_schema) n

/-- Modelled from the spec: does a value conform to a compiled field
type?  Part of the validation behaviour of the missing compiler's
models (§4.3 `validate`): nested models validate their fields
recursively (null being accepted for optional ones), arrays validate
elementwise, enum and const check membership and equality.  The fuel
makes the recursion structural; the budget seeded by `conformsToType`
covers every compiled field type. -/
def conformsTo : Nat → FieldType → Json → Bool
  | 0, _, _ => true
  | fuel + 1, t, v =>
      match t, v with
      | .untyped, _ => true
      | .enumOf vs, w => vs.contains w
      | .constOf c, w => c == w
      | .text, .str _ => true
      | .numeric, .num _ => true
      | .integer, .num _ => true
      | .boolean, .bool _ => true
      | .sequence elem, .arr xs => xs.all (fun x => conformsTo fuel elem x)
      | .nestedModel _ fields, .obj kvs =>
          fields.all (fun f =>
            match kvs.lookup f.name with
            | some w => (!f.required && w == Json.null) || conformsTo fuel f.type w
            | none => !f.required)
      | _, _ => false

/-- Conformance of a value to a field type. -/
def conformsToType (t : FieldType) (v : Json) : Bool :=
  conformsTo pyRecursionFuel t v

/-- Issues one field contributes when validating `kwargs`: a required
field that is missing, or a present value that conforms neither to the
field type nor (for optional fields) to null. -/
def fieldIssues (kwargs : List (String × Json)) (f : FieldSpec) : List String :=
  match kwargs.lookup f.name with
  | none => if f.required then [f.name] else []
  | some v =>
      if (!f.required && v.beq .null) || conformsToType f.type v then [] else [f.name]

/-- Keys of `kwargs` that are not fields of the model ("unknown extra
keys are rejected (strict field set)", §4.3; flagged open in §9). -/
def unknownKeys (m : CompiledModel) (kwargs : List (String × Json)) : List String :=
  (kwargs.map Prod.fst).filter (fun k => !(m.fields.map FieldSpec.name).contains k)

/-- Value a validated instance holds for a field: the supplied value,
or the field's declared default when absent. -/
def valueFor (kwargs : List (String × Json)) (f : FieldSpec) : Json :=
  match kwargs.lookup f.name with
  | some v => v
  | none =>
      match f.default with
      | some d => d
      | none => .null

/-- Modelled from the spec: `validate(compiled_model, raw_kwargs)` of
the missing compiler — "fails with a `ValidationError` identifying
every offending field" (§4.3); on success the validated instance,
dumped as its field-to-value mapping (`model_dump`). -/
def validateModel (m : CompiledModel) (kwargs : List (String × Json)) :
    Except WErr (List (String × Json)) :=
  let issues := (m.fields.map (fieldIssues kwargs)).flatten ++ unknownKeys m kwargs
  if issues.isEmpty then
    .ok (m.fields.map (fun f => (f.name, valueFor kwargs f)))
  else
    .error (.validationError issues)

/-- The external template engine (`chatkit.widgets.WidgetTemplate`),
out of the system's scope: `fromFile` models
`WidgetTemplate.from_file(path)` and the returned function models
`template.build(context)`; `Except.error` on either side models the
engine raising. -/
structure TemplateEngine where
  fromFile : String → Except String (List (String × Json) → Except String Json)

/-- Python dict assignment `d[k] = v`: overwrite in place when the key
exists, append otherwise. -/
def setKey (kvs : List (String × Json)) (k : String) (v : Json) :
    List (String × Json) :=
  if (kvs.lookup k).isSome then
    kvs.map (fun p => if p.1 = k then (k, v) else p)
  else
    kvs ++ [(k, v)]

/-- `render_widget_definition` from `rendering.py`: build (or reuse)
the compiled model, validate the keyword arguments, load the template
from the widget's file via the engine, bind `undefined := None` into
the dumped context, and build the tree.  No failure is caught or
wrapped: model, validation and engine errors propagate as they are. -/
def render_widget_definition (eng : TemplateEngine) (wd : WidgetDefinition)
    (kwargs : List (String × Json)) : Except WErr Json := do
  let model ← build_widget_model wd
  let validated ← validateModel model kwargs
  match eng.fromFile wd.file_path with
  | .error msg => .error (.engineFailure msg)
  | .ok buildTree =>
      let renderContext := setKey validated "undefined" Json.null
      match buildTree renderContext with
      | .error msg => .error (.engineFailure msg)
      | .ok tree => .ok tree

/-! ## `tooling.py` — tool synthesis and registration -/

/-- `inspect.Parameter` kinds. -/
inductive ParamKind where
  | positionalOnly : ParamKind
  | positionalOrKeyword : ParamKind
  | varPositional : ParamKind
  | keywordOnly : ParamKind
  | varKeyword : ParamKind
deriving Repr, DecidableEq

/-- One declared parameter of a synthesized tool (`inspect.Parameter`):
`default = none` models `inspect.Parameter.empty`. -/
structure Param where
  name : String
  kind : ParamKind
  default : Option Json
  annotation : FieldType

/-- Declared return annotations a synthesized tool can carry;
`widgetComponentBase` is `chatkit.widgets.WidgetComponentBase`, the
widget-component capability type. -/
inductive RetAnnotation where
  | widgetComponentBase : RetAnnotation
deriving Repr, DecidableEq

/-- A synthesized tool: declared name, docstring, signature and return
annotation, plus the invocation body. -/
structure ToolFunction where
  name : String
  doc : String
  params : List Param
  returnAnnotation : RetAnnotation
  invoke : TemplateEngine → List (String × Json) → Except WErr Json

/-- `_create_widget_tool_function` from `tooling.py`: compile the model
once, name the callable `_to_camel_case(_sanitize_tool_name(name))`,
declare one keyword-only parameter per model field in field order
(default `empty` for required fields, the field default otherwise,
annotated with the field type), declare the return type
`WidgetComponentBase`, and delegate invocation to
`render_widget_definition(widget_def, **kwargs)`. -/
def _create_widget_tool_function (wd : WidgetDefinition) :
    Except WErr ToolFunction :=
  match wd.name.asString with
  | none => .error .nameNotString
  | some nameStr =>
      match build_widget_model wd with
      | .error e => .error e
      | .ok pydanticModel =>
          .ok
            { name := to_camel_case (sanitize_tool_name nameStr)
              doc := "Generate a " ++ nameStr ++ " widget.\n\n" ++
                "This tool creates a " ++ nameStr ++
                " widget with the provided data.\n" ++
                "The input must conform to the widget's JSON schema."
              params := pydanticModel.fields.map (fun f =>
                { name := f.name
                  kind := .keywordOnly
                  default := if f.required then none else f.default
                  annotation := f.type })
              returnAnnotation := .widgetComponentBase
              invoke := fun eng kwargs => render_widget_definition eng wd kwargs }

/-- The tool registry: sanitized tool name to synthesized tool. -/
abbrev Registry := List (String × ToolFunction)

/-- `server.tool(name=tool_name)(tool_func)`: register under `name`,
a later registration under the same name overwriting the earlier one
(registry semantics, §4.6). -/
def registerTool (reg : Registry) (name : String) (tf : ToolFunction) : Registry :=
  if (reg.lookup name).isSome then
    reg.map (fun p => if p.1 = name then (name, tf) else p)
  else
    reg ++ [(name, tf)]

/-- `generate_widget_tools` from `tooling.py`: synthesize and register
one tool per widget definition, in order. -/
def generate_widget_tools : Registry → List WidgetDefinition → Except WErr Registry
  | reg, [] => .ok reg
  | reg, wd :: rest =>
      match _create_widget_tool_function wd with
      | .error e => .error e
      | .ok toolFunc =>
          match wd.name.asString with
          | none => .error .nameNotString
          | some nameStr =>
              generate_widget_tools
                (registerTool reg (sanitize_tool_name nameStr) toolFunc) rest

/-! ## `widget_loader.py` — discovery and loading -/

/-- One candidate yielded by `base_dir.rglob("*.widget")`: its path as
globbed, whether it is a regular file, its canonical path (`none`
models `resolve()` raising `OSError`), and its parsed content (`error`
models `json.JSONDecodeError`). -/
structure FileEntry where
  path : String
  isFile : Bool
  resolved : Option String
  content : Except String Json

/-- A widgets directory as seen by `load_widgets`: the outcome of
`_validate_widgets_dir` (`some msg` models its `ValueError`), the
canonical base directory, and the candidates `rglob` yields. -/
structure WidgetFS where
  dirError : Option String
  baseResolved : String
  entries : List FileEntry

/-- Path order used by `sorted(...)` over `rglob` results: Python
compares paths by their string form, lexicographically by code point. -/
def pathOrder (a b : FileEntry) : Prop :=
  a.path.data ≤ b.path.data

instance : DecidableRel pathOrder := fun a b =>
  inferInstanceAs (Decidable (a.path.data ≤ b.path.data))

instance : IsTotal FileEntry pathOrder :=
  ⟨fun a b => le_total a.path.data b.path.data⟩

instance : IsTrans FileEntry pathOrder :=
  ⟨fun _ _ _ hab hbc => le_trans hab hbc⟩

/-- `sorted(base_dir.rglob("*.widget"))`. -/
def sortPaths (l : List FileEntry) : List FileEntry :=
  List.insertionSort pathOrder l

/-- `resolved_path.relative_to(base_resolved)` succeeds iff the
canonical path is the base itself or lies under it at a component
boundary. -/
def isWithin (base resolved : String) : Bool :=
  base = resolved || List.isPrefixOf (base.data ++ ['/']) resolved.data

/-- The scan loop of `_collect_widget_files`: skip non-files, skip
unresolvable candidates (warning), skip candidates whose canonical path
escapes the base directory (warning), skip canonical paths already seen
(silently, first occurrence wins), keep the rest in scan order. -/
def collectGo (baseResolved : String) : List FileEntry → List String → List FileEntry
  | [], _ => []
  | e :: rest, seen =>
      if !e.isFile then
        collectGo baseResolved rest seen
      else
        match e.resolved with
        | none => collectGo baseResolved rest seen
        | some r =>
            if !isWithin baseResolved r then
              collectGo baseResolved rest seen
            else if seen.contains r then
              collectGo baseResolved rest seen
            else
              e :: collectGo baseResolved rest (r :: seen)

/-- `_collect_widget_files` from `widget_loader.py`: scan the sorted
candidates with an initially empty seen-set. -/
def _collect_widget_files (baseResolved : String) (entries : List FileEntry) :
    List FileEntry :=
  collectGo baseResolved (sortPaths entries) []

/-- The five required top-level fields of a `.widget` file. -/
def requiredFields : List String :=
  ["name", "version", "jsonSchema", "outputJsonPreview", "template"]

/-- `load_widget` from `widget_loader.py`: parse the file, reject in a
single error every missing required field at once, require `template`
to be a string, and store every other value unchanged. -/
def load_widget (path : String) (content : Except String Json) :
    Except WErr WidgetDefinition := do
  let data ← content.mapError (WErr.parseError path)
  let missingFields := requiredFields.filter (fun k => !data.hasKey k)
  if missingFields.isEmpty then
    match data.lookupKey "template" with
    | some (.str templateValue) =>
        .ok
          { name := (data.lookupKey "name").getD .null
            version := (data.lookupKey "version").getD .null
            json_schema := (data.lookupKey "jsonSchema").getD .null
            output_json_preview := (data.lookupKey "outputJsonPreview").getD .null
            template := templateValue
            encoded_widget := data.lookupKey "encodedWidget"
            file_path := path }
    | _ => .error (.templateNotString path)
  else
    .error (.missingFields path missingFields)

/-- The list comprehension `[load_widget(f) for f in widget_files]`:
load in order, the first failure aborting the whole batch. -/
def loadEntries : List FileEntry → Except WErr (List WidgetDefinition)
  | [] => .ok []
  | e :: rest => do
      let wd ← load_widget e.path e.content
      let others ← loadEntries rest
      .ok (wd :: others)

/-- `load_widgets` from `widget_loader.py`: validate the directory,
collect the widget files, and load each one. -/
def load_widgets (fs : WidgetFS) : Except WErr (List WidgetDefinition) :=
  match fs.dirError with
  | some msg => .error (.configError msg)
  | none => loadEntries (_collect_widget_files fs.baseResolved fs.entries)

/-- `discover_widgets` from `widget_loader.py`: an alias of
`load_widgets`. -/
def discover_widgets (fs : WidgetFS) : Except WErr (List WidgetDefinition) :=
  load_widgets fs

/-- `register_widget_tools` from `server.py`: discover widget
definitions, then synthesize and register the tools. -/
def register_widget_tools (fs : WidgetFS) (reg : Registry) : Except WErr Registry :=
  match load_widgets fs with
  | .error e => .error e
  | .ok widgetDefs => generate_widget_tools reg widgetDefs

/-! ## Concrete sample data used by witnesses -/

/-- Does `needle` occur as a contiguous substring of `haystack`? -/
def occursIn (needle : List Char) : List Char → Bool
  | [] => needle.isPrefixOf []
  | c :: rest => needle.isPrefixOf (c :: rest) || occursIn needle rest

/-- A Create-Event-style input schema: `title` required, `description`
optional. -/
def sampleSchema : Json :=
  Json.obj [("type", Json.str "object"),
    ("properties", Json.obj
      [("title", Json.obj [("type", Json.str "string")]),
       ("description", Json.obj [("type", Json.str "string")])]),
    ("required", Json.arr [Json.str "title"])]

/-- A loaded widget definition over `sampleSchema`. -/
def sampleWidget : WidgetDefinition :=
  { name := Json.str "Create Event"
    version := Json.str "1"
    json_schema := sampleSchema
    output_json_preview := Json.obj []
    template := "{}"
    encoded_widget := none
    file_path := "/w/ce.widget" }

/-- The same widget under a different display name. -/
def sampleRenamedWidget : WidgetDefinition :=
  { sampleWidget with name := Json.str "Totally Different" }

/-- The model `build_widget_model` compiles for `sampleWidget`. -/
def sampleModel : CompiledModel :=
  ⟨"CreateEventModel", "CreateEventArguments",
    [FieldSpec.mk "description" FieldType.text false (some Json.null),
     FieldSpec.mk "title" FieldType.text true none]⟩

/-- A template engine whose template always builds a Card tree. -/
def cardEngine : TemplateEngine :=
  ⟨fun _ => .ok (fun _ => .ok (Json.obj [("type", Json.str "Card")]))⟩

/-- A template engine whose loading always fails with `"boom"`. -/
def boomEngine : TemplateEngine :=
  ⟨fun _ => .error "boom"⟩

/-! ## Lemmas about the identifier normaliser -/

/-- Character order is code-point order. -/
theorem char_le_iff_toNat (a b : Char) : a ≤ b ↔ a.toNat ≤ b.toNat := by
  rw [Char.le_def, UInt32.le_def, BitVec.le_def]; rfl

/-- Shifting an uppercase code point by 32 lands on a lowercase letter:
it passes the sanitising filter, is neither uppercase, a digit, a space
nor a hyphen. -/
theorem lowered_upper_props :
    ∀ n < 91, 65 ≤ n →
      pyIsUpperAlpha (Char.ofNat (n + 32)) = false ∧
      keepSanitized (Char.ofNat (n + 32)) = true ∧
      replaceSpaceHyphen (Char.ofNat (n + 32)) = Char.ofNat (n + 32) ∧
      pyIsDigit (Char.ofNat (n + 32)) = false := by
  decide

/-- An uppercase character's code point lies in `[65, 90]`. -/
theorem upper_toNat_bounds {c : Char} (h : pyIsUpperAlpha c = true) :
    65 ≤ c.toNat ∧ c.toNat ≤ 90 := by
  have h' := h
  unfold pyIsUpperAlpha at h'
  have h1 : 'A' ≤ c := by
    cases hA : ('A' ≤ c : Bool) with
    | true => exact of_decide_eq_true hA
    | false => simp [decide_eq_true_eq] at h'; rw [decide_eq_false_iff_not] at hA; exact absurd h'.1 hA
  have h2 : c ≤ 'Z' := by
    cases hZ : (c ≤ 'Z' : Bool) with
    | true => exact of_decide_eq_true hZ
    | false => simp [decide_eq_true_eq] at h'; rw [decide_eq_false_iff_not] at hZ; exact absurd h'.2 hZ
  exact ⟨(char_le_iff_toNat 'A' c).mp h1, (char_le_iff_toNat c 'Z').mp h2⟩

/-- One combined character pass of `_sanitize_tool_name` before the
filter. -/
theorem sanitizeCore_cons (c : Char) (cs : List Char) :
    sanitizeCore (c :: cs) =
      if keepSanitized (replaceSpaceHyphen (pyLowerChar c)) then
        replaceSpaceHyphen (pyLowerChar c) :: sanitizeCore cs
      else sanitizeCore cs := by
  simp only [sanitizeCore, List.map_cons, List.filter_cons]

/-- `pyLowerChar` never produces an uppercase character, and uppercase
input is lowered to a character the filter keeps unchanged. -/
theorem pyLowerChar_no_upper (c : Char) :
    pyIsUpperAlpha (pyLowerChar c) = false ∧
    (pyIsUpperAlpha c = true →
      keepSanitized (pyLowerChar c) = true ∧
      replaceSpaceHyphen (pyLowerChar c) = pyLowerChar c ∧
      pyIsDigit (pyLowerChar c) = false) := by
  cases h : pyIsUpperAlpha c with
  | false =>
      constructor
      · unfold pyLowerChar
        rw [h]
        simp only [Bool.false_eq_true, if_false]
        exact h
      · intro hc
        exact (Bool.false_ne_true hc).elim
  | true =>
      have hb := upper_toNat_bounds h
      have hprops := lowered_upper_props c.toNat (by omega) hb.1
      unfold pyLowerChar
      rw [h]
      simp only [if_pos rfl]
      exact ⟨hprops.1, fun _ => ⟨hprops.2.1, hprops.2.2.1, hprops.2.2.2⟩⟩

/-- The character the sanitising pipeline emits for `c`. -/
theorem sanitizeStep_no_upper (c : Char) :
    pyIsUpperAlpha (replaceSpaceHyphen (pyLowerChar c)) = false := by
  unfold replaceSpaceHyphen
  by_cases hsp : pyLowerChar c = ' ' ∨ pyLowerChar c = '-'
  · have : (pyLowerChar c = ' ' || pyLowerChar c = '-') = true := by
      rcases hsp with h | h <;> simp [h]
    rw [this, if_pos rfl]
    decide
  · have : (pyLowerChar c = ' ' || pyLowerChar c = '-') = false := by
      push_neg at hsp
      simp [hsp.1, hsp.2]
    rw [this]
    simp only [Bool.false_eq_true, if_false]
    exact (pyLowerChar_no_upper c).1

/-- Members of `sanitizeCore` pass the filter and are not uppercase. -/
theorem mem_sanitizeCore {c : Char} {s : List Char} (h : c ∈ sanitizeCore s) :
    keepSanitized c = true ∧ pyIsUpperAlpha c = false := by
  unfold sanitizeCore at h
  rw [List.mem_filter] at h
  refine ⟨h.2, ?_⟩
  rcases List.mem_map.mp h.1 with ⟨b, hb, hbc⟩
  rcases List.mem_map.mp hb with ⟨a, _, hab⟩
  rw [← hbc, ← hab]
  exact sanitizeStep_no_upper a

/-- A character the filter keeps is neither a space nor a hyphen. -/
theorem keep_not_space_hyphen {c : Char} (h : keepSanitized c = true) :
    replaceSpaceHyphen c = c := by
  unfold replaceSpaceHyphen
  by_cases hs : c = ' '
  · rw [hs] at h; exact absurd h (by decide)
  · by_cases hh : c = '-'
    · rw [hh] at h; exact absurd h (by decide)
    · simp [hs, hh]

/-- A kept, non-uppercase character passes the whole pipeline
unchanged. -/
theorem sanitizeCore_fixed {l : List Char}
    (h : ∀ c ∈ l, keepSanitized c = true ∧ pyIsUpperAlpha c = false) :
    sanitizeCore l = l := by
  induction l with
  | nil => rfl
  | cons c cs ih =>
      have hc := h c (List.mem_cons_self c cs)
      have hlower : pyLowerChar c = c := by
        unfold pyLowerChar; rw [hc.2]; simp
      rw [sanitizeCore_cons, hlower, keep_not_space_hyphen hc.1, if_pos hc.1]
      rw [ih (fun d hd => h d (List.mem_cons_of_mem c hd))]

/-- `sanitizeCore` is idempotent. -/
theorem sanitizeCore_idem (s : List Char) :
    sanitizeCore (sanitizeCore s) = sanitizeCore s :=
  sanitizeCore_fixed (fun _ hc => mem_sanitizeCore hc)

/-- `_sanitize_tool_name` on a list whose core is empty. -/
theorem sanitizeToolNameList_of_core_nil {s : List Char}
    (h : sanitizeCore s = []) : sanitizeToolNameList s = [] := by
  unfold sanitizeToolNameList
  rw [h]

/-- `_sanitize_tool_name` on a list with non-empty core. -/
theorem sanitizeToolNameList_of_core_cons {s : List Char} {c : Char}
    {rest : List Char} (h : sanitizeCore s = c :: rest) :
    sanitizeToolNameList s =
      if pyIsDigit c then '_' :: c :: rest else c :: rest := by
  unfold sanitizeToolNameList
  rw [h]

/-- `_sanitize_tool_name` is idempotent on character lists. -/
theorem sanitizeToolNameList_idem (s : List Char) :
    sanitizeToolNameList (sanitizeToolNameList s) = sanitizeToolNameList s := by
  cases hcore : sanitizeCore s with
  | nil =>
      rw [sanitizeToolNameList_of_core_nil hcore,
        sanitizeToolNameList_of_core_nil (s := []) rfl]
  | cons c rest =>
      have hfix : sanitizeCore (c :: rest) = c :: rest := by
        rw [← hcore]; exact sanitizeCore_idem s
      rw [sanitizeToolNameList_of_core_cons hcore]
      by_cases hdig : pyIsDigit c = true
      · rw [if_pos hdig]
        have hund : sanitizeCore ('_' :: c :: rest) = '_' :: c :: rest := by
          rw [sanitizeCore_cons]
          have h1 : pyLowerChar '_' = '_' := by decide
          rw [h1]
          have h2 : replaceSpaceHyphen '_' = '_' := by decide
          rw [h2, if_pos (by decide), hfix]
        rw [sanitizeToolNameList_of_core_cons hund,
          if_neg (by decide : ¬ pyIsDigit '_' = true)]
      · rw [if_neg hdig, sanitizeToolNameList_of_core_cons hfix, if_neg hdig]

/-- C8: `sanitize_tool_name` lower-cases, replaces each space and
hyphen with an underscore without merging runs, strips every character
that is not alphanumeric or underscore (so every output character
passes the filter and none is uppercase), prepends an underscore
exactly when the result starts with a digit (so the output never starts
with a digit), maps empty or all-punctuation input to the empty string,
and on the spec's examples gives `"flight_tracker"`, `"_123_widget"`
and `"widget_name"`. -/
theorem C8_sanitize_tool_name_spec :
    (∀ s : String, ∀ c ∈ (sanitize_tool_name s).data,
        keepSanitized c = true ∧ pyIsUpperAlpha c = false) ∧
    (∀ (s : String) (c : Char) (rest : List Char),
        (sanitize_tool_name s).data = c :: rest → pyIsDigit c = false) ∧
    sanitize_tool_name "Flight Tracker" = "flight_tracker" ∧
    sanitize_tool_name "123 Widget" = "_123_widget" ∧
    sanitize_tool_name "Widget-Name!" = "widget_name" ∧
    sanitize_tool_name "" = "" ∧
    sanitize_tool_name "?!." = "" ∧
    sanitize_tool_name "A  B--C" = "a__b__c" := by
  refine ⟨?_, ?_, by decide, by decide, by decide, by decide, by decide, by decide⟩
  · intro s c hc
    have hc' : c ∈ sanitizeToolNameList s.data := hc
    cases hcore : sanitizeCore s.data with
    | nil =>
        rw [sanitizeToolNameList_of_core_nil hcore] at hc'
        exact absurd hc' (List.not_mem_nil c)
    | cons d t =>
        rw [sanitizeToolNameList_of_core_cons hcore] at hc'
        by_cases hdig : pyIsDigit d = true
        · rw [if_pos hdig] at hc'
          rcases List.mem_cons.mp hc' with h | h
          · rw [h]; exact ⟨by decide, by decide⟩
          · exact mem_sanitizeCore (hcore ▸ h)
        · rw [if_neg hdig] at hc'
          exact mem_sanitizeCore (hcore ▸ hc')
  · intro s c rest hc
    have hc' : sanitizeToolNameList s.data = c :: rest := hc
    cases hcore : sanitizeCore s.data with
    | nil =>
        rw [sanitizeToolNameList_of_core_nil hcore] at hc'
        exact absurd hc' (by simp)
    | cons d t =>
        rw [sanitizeToolNameList_of_core_cons hcore] at hc'
        by_cases hdig : pyIsDigit d = true
        · rw [if_pos hdig] at hc'
          have : c = '_' := (List.cons.injEq _ _ _ _ ▸ hc').1.symm
          rw [this]; decide
        · rw [if_neg hdig] at hc'
          have : c = d := (List.cons.injEq _ _ _ _ ▸ hc').1.symm
          rw [this]
          exact Bool.not_eq_true _ ▸ hdig
/-- Witness for C8 at concrete inputs. -/
theorem C8_sanitize_tool_name_spec_witness :
    (keepSanitized 'f' = true ∧ pyIsUpperAlpha 'f' = false) ∧
    pyIsDigit '_' = false :=
  ⟨C8_sanitize_tool_name_spec.1 "Flight Tracker" 'f' (by decide),
    C8_sanitize_tool_name_spec.2.1 "123 Widget" '_'
      ['1', '2', '3', '_', 'w', 'i', 'd', 'g', 'e', 't'] (by decide)⟩

/-- C9: `sanitize_tool_name` is idempotent on every display name. -/
theorem C9_sanitize_tool_name_idempotent (s : String) :
    sanitize_tool_name (sanitize_tool_name s) = sanitize_tool_name s :=
  congrArg String.mk (sanitizeToolNameList_idem s.data)

/-! ## Lemmas and claims about `load_widget` -/

/-- A parsed payload with every required field present produces an empty
missing-fields list. -/
theorem missing_filter_nil {data : Json}
    (h : ∀ k ∈ requiredFields, data.hasKey k = true) :
    requiredFields.filter (fun k => !data.hasKey k) = [] := by
  rw [List.filter_eq_nil_iff]
  intro k hk
  rw [h k hk]
  decide

/-- C7: whenever any of the five required fields is absent from a
parsed widget payload, `load_widget` fails with one single error that
enumerates exactly the absent required fields — all of them at once,
not just the first. -/
theorem C7_load_widget_lists_all_missing_fields (path : String) (data : Json)
    (h : ∃ k ∈ requiredFields, data.hasKey k = false) :
    load_widget path (.ok data) =
      .error (.missingFields path
        (requiredFields.filter (fun k => !data.hasKey k))) ∧
    ∀ k, k ∈ requiredFields.filter (fun k => !data.hasKey k) ↔
      (k ∈ requiredFields ∧ data.hasKey k = false) := by
  constructor
  · have hne : requiredFields.filter (fun k => !data.hasKey k) ≠ [] := by
      rcases h with ⟨k, hk, habs⟩
      intro hnil
      have : k ∈ requiredFields.filter (fun k => !data.hasKey k) := by
        rw [List.mem_filter]
        exact ⟨hk, by rw [habs]; decide⟩
      rw [hnil] at this
      exact absurd this (List.not_mem_nil k)
    have hempty : (requiredFields.filter (fun k => !data.hasKey k)).isEmpty = false := by
      cases hf : requiredFields.filter (fun k => !data.hasKey k) with
      | nil => exact absurd hf hne
      | cons a l => rfl
    simp only [load_widget, Except.mapError, bind, Except.bind, hempty,
      Bool.false_eq_true, if_false]
  · intro k
    rw [List.mem_filter]
    constructor
    · rintro ⟨hk, hv⟩
      exact ⟨hk, by revert hv; cases data.hasKey k <;> simp⟩
    · rintro ⟨hk, hv⟩
      exact ⟨hk, by rw [hv]; decide⟩
/-- Witness for C7: a payload that only has `name` is rejected with the
other four required fields enumerated in one error. -/
theorem C7_load_widget_lists_all_missing_fields_witness :
    (∃ k ∈ requiredFields, (Json.obj [("name", Json.str "X")]).hasKey k = false) ∧
    load_widget "w.widget" (.ok (Json.obj [("name", Json.str "X")])) =
      .error (.missingFields "w.widget"
        ["version", "jsonSchema", "outputJsonPreview", "template"]) := by
  refine ⟨by decide, ?_⟩
  have h := (C7_load_widget_lists_all_missing_fields "w.widget"
    (Json.obj [("name", Json.str "X")]) (by decide)).1
  exact h.trans rfl

/-- C10: once all five required keys are present, `load_widget` fails
exactly when the `template` value is not a string; every other value
(`name`, `version`, `jsonSchema`, `outputJsonPreview`, the optional
`encodedWidget`) is stored in the `WidgetDefinition` unchanged and
without any type check. -/
theorem C10_load_widget_checks_only_template (path : String) (data : Json)
    (h : ∀ k ∈ requiredFields, data.hasKey k = true) :
    (∀ tmpl, data.lookupKey "template" = some (.str tmpl) →
      load_widget path (.ok data) =
        .ok { name := (data.lookupKey "name").getD .null
              version := (data.lookupKey "version").getD .null
              json_schema := (data.lookupKey "jsonSchema").getD .null
              output_json_preview := (data.lookupKey "outputJsonPreview").getD .null
              template := tmpl
              encoded_widget := data.lookupKey "encodedWidget"
              file_path := path }) ∧
    (∀ v, data.lookupKey "template" = some v → (∀ tmpl, v ≠ .str tmpl) →
      load_widget path (.ok data) = .error (.templateNotString path)) := by
  have hnil := missing_filter_nil h
  constructor
  · intro tmpl htmpl
    simp only [load_widget, Except.mapError, bind, Except.bind, hnil,
      List.isEmpty_nil, if_pos, htmpl]
  · intro v hv hns
    simp only [load_widget, Except.mapError, bind, Except.bind, hnil,
      List.isEmpty_nil, if_pos, hv]
    cases v with
    | str s => exact absurd rfl (hns s)
    | null => rfl
    | bool b => rfl
    | num n => rfl
    | arr xs => rfl
    | obj kvs => rfl
/-- Witness for C10: a payload whose `jsonSchema` is the number `5` is
accepted unchanged, and one whose `template` is a number is rejected. -/
theorem C10_load_widget_checks_only_template_witness :
    load_widget "a.widget"
      (.ok (Json.obj [("name", Json.str "W"), ("version", Json.str "1"),
        ("jsonSchema", Json.num 5), ("outputJsonPreview", Json.obj []),
        ("template", Json.str "{}")])) =
      .ok { name := Json.str "W"
            version := Json.str "1"
            json_schema := Json.num 5
            output_json_preview := Json.obj []
            template := "{}"
            encoded_widget := none
            file_path := "a.widget" } ∧
    load_widget "b.widget"
      (.ok (Json.obj [("name", Json.str "W"), ("version", Json.str "1"),
        ("jsonSchema", Json.obj []), ("outputJsonPreview", Json.obj []),
        ("template", Json.num 3)])) =
      .error (.templateNotString "b.widget") := by
  constructor
  · have h := (C10_load_widget_checks_only_template "a.widget"
      (Json.obj [("name", Json.str "W"), ("version", Json.str "1"),
        ("jsonSchema", Json.num 5), ("outputJsonPreview", Json.obj []),
        ("template", Json.str "{}")]) (by decide)).1 "{}" rfl
    exact h.trans rfl
  · exact (C10_load_widget_checks_only_template "b.widget"
      (Json.obj [("name", Json.str "W"), ("version", Json.str "1"),
        ("jsonSchema", Json.obj []), ("outputJsonPreview", Json.obj []),
        ("template", Json.num 3)]) (by decide)).2 (Json.num 3) rfl
      (fun tmpl hne => Json.noConfusion hne)

/-! ## Claim C4: discovery is all-or-nothing -/

/-- Loading a batch whose first failure is `err` (everything before it
loads fine) yields exactly `err` and no partial list. -/
theorem loadEntries_first_error {pre post : List FileEntry} {e : FileEntry}
    {err : WErr}
    (hpre : ∀ f ∈ pre, ∃ wd, load_widget f.path f.content = .ok wd)
    (herr : load_widget e.path e.content = .error err) :
    loadEntries (pre ++ e :: post) = .error err := by
  induction pre with
  | nil =>
      simp only [List.nil_append, loadEntries, bind, Except.bind, herr]
  | cons f rest ih =>
      rcases hpre f (List.mem_cons_self f rest) with ⟨wd, hwd⟩
      have htail := ih (fun g hg => hpre g (List.mem_cons_of_mem f hg))
      simp only [List.cons_append, loadEntries, bind, Except.bind, hwd,
        List.append_eq, htail]

/-- C4: with a valid widgets directory, if one selected widget file
fails to load (every earlier selected file loading fine), the whole
`load_widgets`/`discover_widgets` call fails with exactly that error
and returns no partial widget set, and `register_widget_tools`
propagates the same error unchanged, registering nothing, whatever
registry it started from. -/
theorem C4_discovery_all_or_nothing (fs : WidgetFS)
    (hdir : fs.dirError = none)
    (pre post : List FileEntry) (e : FileEntry) (err : WErr)
    (hsplit : _collect_widget_files fs.baseResolved fs.entries = pre ++ e :: post)
    (hpre : ∀ f ∈ pre, ∃ wd, load_widget f.path f.content = .ok wd)
    (herr : load_widget e.path e.content = .error err) :
    load_widgets fs = .error err ∧
    discover_widgets fs = .error err ∧
    ∀ reg, register_widget_tools fs reg = .error err := by
  have hload : load_widgets fs = .error err := by
    unfold load_widgets
    rw [hdir, hsplit]
    exact loadEntries_first_error hpre herr
  refine ⟨hload, hload, fun reg => ?_⟩
  unfold register_widget_tools
  rw [hload]
/-- Witness for C4: two selected files, the second missing all fields
but `name`; discovery and registration fail with its error. -/
theorem C4_discovery_all_or_nothing_witness :
    load_widgets
      { dirError := none
        baseResolved := "/w"
        entries :=
          [{ path := "/w/a.widget", isFile := true,
             resolved := some "/w/a.widget",
             content := .ok (Json.obj [("name", Json.str "A"),
               ("version", Json.str "1"), ("jsonSchema", Json.obj []),
               ("outputJsonPreview", Json.obj []),
               ("template", Json.str "{}")]) },
           { path := "/w/b.widget", isFile := true,
             resolved := some "/w/b.widget",
             content := .ok (Json.obj [("name", Json.str "B")]) }] } =
      .error (.missingFields "/w/b.widget"
        ["version", "jsonSchema", "outputJsonPreview", "template"]) ∧
    register_widget_tools
      { dirError := none
        baseResolved := "/w"
        entries :=
          [{ path := "/w/a.widget", isFile := true,
             resolved := some "/w/a.widget",
             content := .ok (Json.obj [("name", Json.str "A"),
               ("version", Json.str "1"), ("jsonSchema", Json.obj []),
               ("outputJsonPreview", Json.obj []),
               ("template", Json.str "{}")]) },
           { path := "/w/b.widget", isFile := true,
             resolved := some "/w/b.widget",
             content := .ok (Json.obj [("name", Json.str "B")]) }] } [] =
      .error (.missingFields "/w/b.widget"
        ["version", "jsonSchema", "outputJsonPreview", "template"]) := by
  have h := C4_discovery_all_or_nothing
    { dirError := none
      baseResolved := "/w"
      entries :=
        [{ path := "/w/a.widget", isFile := true,
           resolved := some "/w/a.widget",
           content := .ok (Json.obj [("name", Json.str "A"),
             ("version", Json.str "1"), ("jsonSchema", Json.obj []),
             ("outputJsonPreview", Json.obj []),
             ("template", Json.str "{}")]) },
         { path := "/w/b.widget", isFile := true,
           resolved := some "/w/b.widget",
           content := .ok (Json.obj [("name", Json.str "B")]) }] }
    rfl
    [{ path := "/w/a.widget", isFile := true,
       resolved := some "/w/a.widget",
       content := .ok (Json.obj [("name", Json.str "A"),
         ("version", Json.str "1"), ("jsonSchema", Json.obj []),
         ("outputJsonPreview", Json.obj []),
         ("template", Json.str "{}")]) }]
    []
    { path := "/w/b.widget", isFile := true,
      resolved := some "/w/b.widget",
      content := .ok (Json.obj [("name", Json.str "B")]) }
    (.missingFields "/w/b.widget"
      ["version", "jsonSchema", "outputJsonPreview", "template"])
    rfl
    (by
      intro f hf
      rw [List.mem_singleton] at hf
      rw [hf]
      exact ⟨_, rfl⟩)
    rfl
  exact ⟨h.1, h.2.2 []⟩

/-! ## Claim C6: deterministic, deduplicated, contained discovery -/

/-- The scan keeps a subsequence of its input. -/
theorem collectGo_sublist (base : String) :
    ∀ (l : List FileEntry) (seen : List String),
      List.Sublist (collectGo base l seen) l := by
  intro l
  induction l with
  | nil => intro seen; exact List.Sublist.refl _
  | cons e rest ih =>
      intro seen
      unfold collectGo
      split
      · exact (ih seen).cons e
      · split
        · exact (ih seen).cons e
        · split
          · exact (ih seen).cons e
          · split
            · exact (ih seen).cons e
            · exact (ih _).cons₂ e

/-- Every kept entry is a regular file whose canonical path exists, lies
inside the base directory, and was not previously seen. -/
theorem mem_collectGo (base : String) :
    ∀ (l : List FileEntry) (seen : List String) (x : FileEntry),
      x ∈ collectGo base l seen →
      x.isFile = true ∧ ∃ r, x.resolved = some r ∧ isWithin base r = true ∧
        seen.contains r = false := by
  intro l
  induction l with
  | nil => intro seen x hx; exact absurd hx (List.not_mem_nil x)
  | cons e rest ih =>
      intro seen x hx
      unfold collectGo at hx
      split at hx
      · exact ih seen x hx
      · rename_i hfile
        split at hx
        · exact ih seen x hx
        · rename_i r hr
          split at hx
          · exact ih seen x hx
          · rename_i hw
            split at hx
            · exact ih seen x hx
            · rename_i hs
              rcases List.mem_cons.mp hx with hxe | hxtail
              · rw [hxe]
                refine ⟨?_, r, hr, ?_, ?_⟩
                · revert hfile; cases e.isFile <;> simp
                · revert hw; cases isWithin base r <;> simp
                · revert hs; cases seen.contains r <;> simp
              · rcases ih (r :: seen) x hxtail with ⟨hxf, r', hr', hw', hs'⟩
                refine ⟨hxf, r', hr', hw', ?_⟩
                rw [List.contains_cons] at hs'
                exact (Bool.or_eq_false_iff.mp hs').2

/-- Kept entries have pairwise distinct canonical paths. -/
theorem collectGo_pairwise (base : String) :
    ∀ (l : List FileEntry) (seen : List String),
      List.Pairwise (fun a b : FileEntry => a.resolved ≠ b.resolved)
        (collectGo base l seen) := by
  intro l
  induction l with
  | nil => intro seen; exact List.Pairwise.nil
  | cons e rest ih =>
      intro seen
      unfold collectGo
      split
      · exact ih seen
      · split
        · exact ih seen
        · rename_i r hr
          split
          · exact ih seen
          · split
            · exact ih seen
            · rename_i hs
              rw [List.pairwise_cons]
              refine ⟨?_, ih (r :: seen)⟩
              intro b hb
              rcases mem_collectGo base rest (r :: seen) b hb with
                ⟨_, r', hr', _, hs'⟩
              rw [List.contains_cons] at hs'
              have hne : (r' == r) = false := (Bool.or_eq_false_iff.mp hs').1
              rw [hr, hr']
              intro hcontra
              have : r = r' := Option.some.injEq _ _ ▸ hcontra
              rw [this] at hne
              simp at hne

/-- Completeness with first-occurrence-wins: every candidate that is a
file, resolvable, inside the base and not yet seen has its canonical
path represented in the scan's output. -/
theorem collectGo_complete (base : String) :
    ∀ (l : List FileEntry) (seen : List String) (c : FileEntry) (r : String),
      c ∈ l → c.isFile = true → c.resolved = some r →
      isWithin base r = true → seen.contains r = false →
      ∃ x ∈ collectGo base l seen, x.resolved = some r := by
  intro l
  induction l with
  | nil => intro seen c r hc; exact absurd hc (List.not_mem_nil c)
  | cons e rest ih =>
      intro seen c r hc hcf hcr hcw hcs
      unfold collectGo
      split
      · rename_i hfe
        rcases List.mem_cons.mp hc with hce | hc'
        · rw [hce] at hcf
          rw [hcf] at hfe
          simp at hfe
        · exact ih seen c r hc' hcf hcr hcw hcs
      · split
        · rename_i hre
          rcases List.mem_cons.mp hc with hce | hc'
          · rw [hce] at hcr
            rw [hre] at hcr
            exact Option.noConfusion hcr
          · exact ih seen c r hc' hcf hcr hcw hcs
        · rename_i r₀ hr₀
          split
          · rename_i hw₀
            rcases List.mem_cons.mp hc with hce | hc'
            · rw [hce] at hcr
              rw [hr₀] at hcr
              have hrr : r₀ = r := Option.some.injEq _ _ ▸ hcr
              rw [hrr] at hw₀
              rw [hcw] at hw₀
              simp at hw₀
            · exact ih seen c r hc' hcf hcr hcw hcs
          · split
            · rename_i hs₀
              rcases List.mem_cons.mp hc with hce | hc'
              · rw [hce] at hcr
                rw [hr₀] at hcr
                have hrr : r₀ = r := Option.some.injEq _ _ ▸ hcr
                rw [hrr] at hs₀
                rw [hcs] at hs₀
                exact Bool.noConfusion hs₀
              · exact ih seen c r hc' hcf hcr hcw hcs
            · rename_i hs₀
              rcases List.mem_cons.mp hc with hce | hc'
              · exact ⟨e, List.mem_cons_self _ _, hce ▸ hcr⟩
              · by_cases hrr : r = r₀
                · exact ⟨e, List.mem_cons_self _ _, by rw [hr₀, hrr]⟩
                · have hcs' : (r₀ :: seen).contains r = false := by
                    rw [List.contains_cons]
                    have : (r == r₀) = false := by
                      cases hb : r == r₀ with
                      | true => exact absurd (of_decide_eq_true hb) hrr
                      | false => rfl
                    rw [this, hcs]
                    rfl
                  rcases ih (r₀ :: seen) c r hc' hcf hcr hcw hcs' with ⟨x, hx, hxr⟩
                  exact ⟨x, List.mem_cons_of_mem e hx, hxr⟩

/-- C6: `_collect_widget_files` returns candidates in sorted
(lexicographic) path order, keeps only regular files whose canonical
path resolves and lies inside the canonical base directory (escapees
and unresolvable candidates are skipped, not fatal), keeps pairwise
distinct canonical paths, and every keepable candidate's canonical
path is represented — so a duplicate is skipped with its first
occurrence winning. -/
theorem C6_collect_widget_files_spec (base : String) (entries : List FileEntry) :
    List.Sorted pathOrder (_collect_widget_files base entries) ∧
    (∀ e ∈ _collect_widget_files base entries,
        e.isFile = true ∧ ∃ r, e.resolved = some r ∧ isWithin base r = true) ∧
    List.Pairwise (fun a b : FileEntry => a.resolved ≠ b.resolved)
      (_collect_widget_files base entries) ∧
    (∀ c ∈ entries, c.isFile = true → ∀ r, c.resolved = some r →
        isWithin base r = true →
        ∃ x ∈ _collect_widget_files base entries, x.resolved = some r) := by
  refine ⟨?_, ?_, ?_, ?_⟩
  · exact List.Pairwise.sublist (collectGo_sublist base (sortPaths entries) [])
      (List.sorted_insertionSort pathOrder entries)
  · intro e he
    rcases mem_collectGo base (sortPaths entries) [] e he with ⟨hf, r, hr, hw, _⟩
    exact ⟨hf, r, hr, hw⟩
  · exact collectGo_pairwise base (sortPaths entries) []
  · intro c hc hcf r hcr hcw
    have hc' : c ∈ sortPaths entries :=
      (List.perm_insertionSort pathOrder entries).mem_iff.mpr hc
    exact collectGo_complete base (sortPaths entries) [] c r hc' hcf hcr hcw rfl
/-- Witness for C6: six candidates given out of order — one duplicate
canonical path, one symlink escape, one directory, one unresolvable —
collapse to the two keepable ones in sorted path order, and the
duplicate's canonical path is represented by its first occurrence. -/
theorem C6_collect_widget_files_spec_witness :
    _collect_widget_files "/w"
      [{ path := "/w/b.widget", isFile := true,
         resolved := some "/w/real.widget", content := .ok (Json.obj []) },
       { path := "/w/a.widget", isFile := true,
         resolved := some "/w/a.widget", content := .ok (Json.obj []) },
       { path := "/w/c.widget", isFile := true,
         resolved := some "/w/real.widget", content := .ok (Json.obj []) },
       { path := "/w/d.widget", isFile := true,
         resolved := some "/etc/evil", content := .ok (Json.obj []) },
       { path := "/w/e.widget", isFile := false,
         resolved := some "/w/e.widget", content := .ok (Json.obj []) },
       { path := "/w/f.widget", isFile := true,
         resolved := none, content := .ok (Json.obj []) }] =
      [{ path := "/w/a.widget", isFile := true,
         resolved := some "/w/a.widget", content := .ok (Json.obj []) },
       { path := "/w/b.widget", isFile := true,
         resolved := some "/w/real.widget", content := .ok (Json.obj []) }] ∧
    ∃ x ∈ _collect_widget_files "/w"
      [{ path := "/w/b.widget", isFile := true,
         resolved := some "/w/real.widget", content := .ok (Json.obj []) },
       { path := "/w/a.widget", isFile := true,
         resolved := some "/w/a.widget", content := .ok (Json.obj []) },
       { path := "/w/c.widget", isFile := true,
         resolved := some "/w/real.widget", content := .ok (Json.obj []) },
       { path := "/w/d.widget", isFile := true,
         resolved := some "/etc/evil", content := .ok (Json.obj []) },
       { path := "/w/e.widget", isFile := false,
         resolved := some "/w/e.widget", content := .ok (Json.obj []) },
       { path := "/w/f.widget", isFile := true,
         resolved := none, content := .ok (Json.obj []) }],
      x.resolved = some "/w/real.widget" := by
  constructor
  · rfl
  · exact (C6_collect_widget_files_spec "/w"
      [{ path := "/w/b.widget", isFile := true,
         resolved := some "/w/real.widget", content := .ok (Json.obj []) },
       { path := "/w/a.widget", isFile := true,
         resolved := some "/w/a.widget", content := .ok (Json.obj []) },
       { path := "/w/c.widget", isFile := true,
         resolved := some "/w/real.widget", content := .ok (Json.obj []) },
       { path := "/w/d.widget", isFile := true,
         resolved := some "/etc/evil", content := .ok (Json.obj []) },
       { path := "/w/e.widget", isFile := false,
         resolved := some "/w/e.widget", content := .ok (Json.obj []) },
       { path := "/w/f.widget", isFile := true,
         resolved := none, content := .ok (Json.obj []) }]).2.2.2
      { path := "/w/c.widget", isFile := true,
        resolved := some "/w/real.widget", content := .ok (Json.obj []) }
      (by simp) rfl "/w/real.widget" rfl rfl

/-! ## Association-list lookup under permutation (for the sorted-keys
round trip) -/

/-- A successful lookup is a membership. -/
theorem lookup_some_mem :
    ∀ {l : List (String × Json)} {k : String} {v : Json},
      l.lookup k = some v → (k, v) ∈ l := by
  intro l
  induction l with
  | nil => intro k v h; exact absurd h (by simp)
  | cons p rest ih =>
      intro k v h
      rcases p with ⟨k₁, v₁⟩
      rw [List.lookup_cons] at h
      cases hk : k == k₁ with
      | true =>
          rw [hk] at h
          have hv : v₁ = v := by simpa using h
          have hkk : k = k₁ := eq_of_beq hk
          rw [hkk, hv]
          exact List.mem_cons_self _ _
      | false =>
          rw [hk] at h
          exact List.mem_cons_of_mem _ (ih h)

/-- With duplicate-free keys a membership determines the lookup. -/
theorem lookup_mem_nodup :
    ∀ {l : List (String × Json)} {k : String} {v : Json},
      (l.map Prod.fst).Nodup → (k, v) ∈ l → l.lookup k = some v := by
  intro l
  induction l with
  | nil => intro k v _ h; exact absurd h (List.not_mem_nil _)
  | cons p rest ih =>
      intro k v nd h
      rcases p with ⟨k₁, v₁⟩
      rw [List.map_cons, List.nodup_cons] at nd
      rw [List.lookup_cons]
      rcases List.mem_cons.mp h with he | hrest
      · have hk : k = k₁ := (Prod.mk.injEq _ _ _ _ ▸ he).1
        have hv : v = v₁ := (Prod.mk.injEq _ _ _ _ ▸ he).2
        rw [hk, hv]
        simp
      · cases hk : k == k₁ with
        | true =>
            exfalso
            have hkk : k = k₁ := eq_of_beq hk
            exact nd.1 (hkk ▸ List.mem_map.mpr ⟨(k, v), hrest, rfl⟩)
        | false => exact ih nd.2 hrest

/-- Lookup in an association list with duplicate-free keys is invariant
under permutation. -/
theorem lookup_perm {l l' : List (String × Json)} (h : l.Perm l')
    (nd : (l.map Prod.fst).Nodup) (k : String) :
    l.lookup k = l'.lookup k := by
  have nd' : (l'.map Prod.fst).Nodup := ((h.map Prod.fst).nodup_iff).mp nd
  cases hl : l.lookup k with
  | some v =>
      exact (lookup_mem_nodup nd' (h.mem_iff.mp (lookup_some_mem hl))).symm
  | none =>
      symm
      rw [List.lookup_eq_none_iff] at hl ⊢
      intro p hp
      exact hl p (h.mem_iff.mpr hp)

/-- Mapping the round trip over an object's values leaves the keys
(in order) unchanged. -/
theorem sortVals_map_fst (fuel : Nat) (kvs : List (String × Json)) :
    (kvs.map (fun p => (p.1, sortKeysFuel fuel p.2))).map Prod.fst =
      kvs.map Prod.fst := by
  induction kvs with
  | nil => rfl
  | cons p rest ih => simp only [List.map_cons, ih]

/-- Lookup after sorting an object's values is the sorted original
value. -/
theorem lookup_sortVals (fuel : Nat) (kvs : List (String × Json)) (k : String) :
    (kvs.map (fun p => (p.1, sortKeysFuel fuel p.2))).lookup k =
      Option.map (sortKeysFuel fuel) (kvs.lookup k) := by
  induction kvs with
  | nil => rfl
  | cons p rest ih =>
      rcases p with ⟨k₁, v₁⟩
      simp only [List.map_cons, List.lookup_cons]
      cases hk : k == k₁ with
      | true => rfl
      | false => exact ih

/-- Unfolding of the round trip on an object. -/
theorem sortKeysJson_obj (kvs : List (String × Json)) :
    sortKeysJson (Json.obj kvs) =
      .obj (List.insertionSort keyOrder
        (kvs.map (fun p => (p.1, sortKeysFuel pyFuelPred p.2)))) :=
  rfl

/-- Key-sorting an object with duplicate-free keys preserves lookups
(up to sorting the value), for any value fuel. -/
theorem lookupKey_sorted_obj (f : Nat) (kvs : List (String × Json))
    (nd : (kvs.map Prod.fst).Nodup) (k : String) :
    (Json.obj (List.insertionSort keyOrder
        (kvs.map (fun p => (p.1, sortKeysFuel f p.2))))).lookupKey k =
      Option.map (sortKeysFuel f) ((Json.obj kvs).lookupKey k) := by
  show (List.insertionSort keyOrder
    (kvs.map (fun p => (p.1, sortKeysFuel f p.2)))).lookup k = _
  have ndSorted : ((List.insertionSort keyOrder
      (kvs.map (fun p => (p.1, sortKeysFuel f p.2)))).map Prod.fst).Nodup := by
    refine (((List.perm_insertionSort keyOrder
      (kvs.map (fun p => (p.1, sortKeysFuel f p.2)))).map
        Prod.fst).nodup_iff).mpr ?_
    rw [sortVals_map_fst]
    exact nd
  rw [lookup_perm (List.perm_insertionSort keyOrder
      (kvs.map (fun p => (p.1, sortKeysFuel f p.2)))) ndSorted k,
    lookup_sortVals]
  rfl

/-- The round trip does not change whether a value is a string. -/
theorem asString_sortKeysFuel (fuel : Nat) (j : Json) :
    (sortKeysFuel fuel j).asString = j.asString := by
  cases fuel with
  | zero => rfl
  | succ f => cases j <;> rfl

/-- The round trip preserves the string entries of an array, in order. -/
theorem filterMap_asString_sortVals (fuel : Nat) :
    ∀ vs : List Json,
      (vs.map (sortKeysFuel fuel)).filterMap Json.asString =
        vs.filterMap Json.asString := by
  intro vs
  induction vs with
  | nil => rfl
  | cons x rest ih =>
      simp only [List.map_cons, List.filterMap_cons, asString_sortKeysFuel, ih]

/-- Key-sorting the root object preserves the schema's `required` name
list, for any value fuel, when the root keys are duplicate-free. -/
theorem requiredNames_sorted_obj (f : Nat) (kvs : List (String × Json))
    (nd : (kvs.map Prod.fst).Nodup) :
    requiredNames (Json.obj (List.insertionSort keyOrder
        (kvs.map (fun p => (p.1, sortKeysFuel f p.2))))) =
      requiredNames (Json.obj kvs) := by
  unfold requiredNames
  rw [lookupKey_sorted_obj f kvs nd "required"]
  cases h : (Json.obj kvs).lookupKey "required" with
  | none => rfl
  | some v =>
      simp only [Option.map_some']
      cases v with
      | arr vs =>
          cases f with
          | zero => rfl
          | succ g =>
              show ((vs.map (sortKeysFuel g)).filterMap Json.asString) = _
              exact filterMap_asString_sortVals g vs
      | null => cases f <;> rfl
      | bool b => cases f <;> rfl
      | num n => cases f <;> rfl
      | str s => cases f <;> rfl
      | obj o => cases f <;> rfl

/-- Key-sorting the root object permutes the keys of the `properties`
mapping, for any value fuel. -/
theorem propsOf_sorted_obj_perm (f : Nat) (kvs : List (String × Json))
    (nd : (kvs.map Prod.fst).Nodup) :
    ((propsOf (Json.obj (List.insertionSort keyOrder
        (kvs.map (fun p => (p.1, sortKeysFuel f p.2)))))).map Prod.fst).Perm
      ((propsOf (Json.obj kvs)).map Prod.fst) := by
  unfold propsOf
  rw [lookupKey_sorted_obj f kvs nd "properties"]
  cases h : (Json.obj kvs).lookupKey "properties" with
  | none => exact List.Perm.refl _
  | some v =>
      simp only [Option.map_some']
      cases v with
      | obj pkvs =>
          cases f with
          | zero => exact List.Perm.refl _
          | succ g =>
              show ((List.insertionSort keyOrder
                (pkvs.map (fun p => (p.1, sortKeysFuel g p.2)))).map
                  Prod.fst).Perm _
              have hp := (List.perm_insertionSort keyOrder
                (pkvs.map (fun p => (p.1, sortKeysFuel g p.2)))).map Prod.fst
              rw [sortVals_map_fst] at hp
              exact hp
      | null => cases f <;> exact List.Perm.refl _
      | bool b => cases f <;> exact List.Perm.refl _
      | num n => cases f <;> exact List.Perm.refl _
      | str s => cases f <;> exact List.Perm.refl _
      | arr a => cases f <;> exact List.Perm.refl _

/-! ## Claim C1: compiled field set and required flags -/

/-- Compiled fields carry exactly the property names, in order. -/
theorem compileFields_map_name :
    ∀ (fuel : Nat) (parent : String) (kvs : List (String × Json))
      (req : List String),
      (compileFields fuel parent kvs req).map FieldSpec.name = kvs.map Prod.fst := by
  intro fuel parent kvs req
  unfold compileFields
  induction kvs with
  | nil => rfl
  | cons p rest ih =>
      simp only [List.map_cons, ih, FieldSpec.name]

/-- A compiled field is required exactly when its name is listed. -/
theorem compileFields_required :
    ∀ (fuel : Nat) (parent : String) (kvs : List (String × Json))
      (req : List String) (f : FieldSpec),
      f ∈ compileFields fuel parent kvs req → f.required = req.contains f.name := by
  intro fuel parent kvs req f hf
  unfold compileFields at hf
  rcases List.mem_map.mp hf with ⟨p, _, hfp⟩
  rw [← hfp]
  rfl

/-- C1: whenever `build_widget_model` compiles a widget whose input
schema is an object with duplicate-free keys, the compiled model's
field-name set is exactly the key set of the schema's `properties`
mapping, and a field is required iff its name appears in the schema's
`required` list. -/
theorem C1_model_fields_match_schema (wd : WidgetDefinition)
    (kvs : List (String × Json)) (m : CompiledModel)
    (hobj : wd.json_schema = Json.obj kvs)
    (hnd : (kvs.map Prod.fst).Nodup)
    (hok : build_widget_model wd = .ok m) :
    (∀ k, k ∈ m.fields.map FieldSpec.name ↔
        k ∈ (propsOf wd.json_schema).map Prod.fst) ∧
    (∀ f ∈ m.fields, f.required =
        (requiredNames wd.json_schema).contains f.name) := by
  unfold build_widget_model at hok
  split at hok
  · exact Except.noConfusion hok
  · rename_i n hname
    unfold _build_pydantic_model json_schema_to_pydantic at hok
    rw [hobj, sortKeysJson_obj] at hok
    split at hok
    · split at hok
      · rename_i pkvs' heqProps
        injection hok with hm
        rw [← hm]
        constructor
        · intro k
          show k ∈ (compileFields _ _ pkvs' _).map FieldSpec.name ↔ _
          rw [compileFields_map_name]
          have hprops : propsOf (Json.obj (List.insertionSort keyOrder
              (kvs.map (fun p => (p.1, sortKeysFuel pyFuelPred p.2))))) = pkvs' := by
            unfold propsOf
            rw [heqProps]
          have hperm := propsOf_sorted_obj_perm pyFuelPred kvs hnd
          rw [hprops] at hperm
          rw [hobj]
          exact hperm.mem_iff
        · intro f hf
          have hreq := compileFields_required _ _ pkvs' _ f hf
          rw [hreq, requiredNames_sorted_obj pyFuelPred kvs hnd, hobj]
      · exact Except.noConfusion hok
    · exact Except.noConfusion hok
/-- Witness for C1: a Create-Event-style schema with `title` required
and `description` optional. -/
theorem C1_model_fields_match_schema_witness :
    ("title" ∈ (List.map FieldSpec.name
        [FieldSpec.mk "description" FieldType.text false (some Json.null),
         FieldSpec.mk "title" FieldType.text true none]) ↔
      "title" ∈ (propsOf (Json.obj [("type", Json.str "object"),
        ("properties", Json.obj
          [("title", Json.obj [("type", Json.str "string")]),
           ("description", Json.obj [("type", Json.str "string")])]),
        ("required", Json.arr [Json.str "title"])])).map Prod.fst) ∧
    (FieldSpec.mk "title" FieldType.text true none).required =
      (requiredNames (Json.obj [("type", Json.str "object"),
        ("properties", Json.obj
          [("title", Json.obj [("type", Json.str "string")]),
           ("description", Json.obj [("type", Json.str "string")])]),
        ("required", Json.arr [Json.str "title"])])).contains
        (FieldSpec.mk "title" FieldType.text true none).name := by
  have h := C1_model_fields_match_schema
    { name := Json.str "Create Event"
      version := Json.str "1"
      json_schema := Json.obj [("type", Json.str "object"),
        ("properties", Json.obj
          [("title", Json.obj [("type", Json.str "string")]),
           ("description", Json.obj [("type", Json.str "string")])]),
        ("required", Json.arr [Json.str "title"])]
      output_json_preview := Json.obj []
      template := "{}"
      encoded_widget := none
      file_path := "/w/ce.widget" }
    [("type", Json.str "object"),
     ("properties", Json.obj
       [("title", Json.obj [("type", Json.str "string")]),
        ("description", Json.obj [("type", Json.str "string")])]),
     ("required", Json.arr [Json.str "title"])]
    ⟨"CreateEventModel", "CreateEventArguments",
      [FieldSpec.mk "description" FieldType.text false (some Json.null),
       FieldSpec.mk "title" FieldType.text true none]⟩
    rfl (by decide) rfl
  exact ⟨h.1 "title",
    h.2 (FieldSpec.mk "title" FieldType.text true none)
      (List.mem_cons_of_mem _ (List.mem_cons_self _ _))⟩

/-! ## Claims C2, C3: the synthesized tool -/

/-- C2: a successfully synthesized tool is named
`to_type_name(sanitize_tool_name(widget name))`, declares exactly one
keyword-only parameter per compiled-model field, in the model's field
order, each annotated with the field's type and carrying its default
(`none`, the no-default marker, when the field is required), and
declares the widget-component capability type as its return type. -/
theorem C2_synthesized_signature (wd : WidgetDefinition) (tf : ToolFunction)
    (m : CompiledModel)
    (hok : _create_widget_tool_function wd = .ok tf)
    (hm : build_widget_model wd = .ok m) :
    (∃ n, wd.name.asString = some n ∧
        tf.name = to_camel_case (sanitize_tool_name n)) ∧
    tf.params = m.fields.map (fun f =>
      { name := f.name
        kind := ParamKind.keywordOnly
        default := if f.required then none else f.default
        annotation := f.type }) ∧
    tf.returnAnnotation = .widgetComponentBase := by
  unfold _create_widget_tool_function at hok
  split at hok
  · exact Except.noConfusion hok
  · rename_i n hname
    split at hok
    · exact Except.noConfusion hok
    · rename_i pm hpm
      injection hok with htf
      have hpm' : pm = m := Except.ok.inj (hpm.symm.trans hm)
      rw [← htf, hpm']
      exact ⟨⟨n, hname, rfl⟩, rfl, rfl⟩
/-- Witness for C2 at `sampleWidget`: two keyword-only parameters
(`description` optional with null default, `title` required with the
no-default marker), both annotated `text`. -/
theorem C2_synthesized_signature_witness :
    ∃ tf : ToolFunction,
      _create_widget_tool_function sampleWidget = .ok tf ∧
      tf.params =
        [{ name := "description", kind := ParamKind.keywordOnly,
           default := some Json.null, annotation := FieldType.text },
         { name := "title", kind := ParamKind.keywordOnly,
           default := none, annotation := FieldType.text }] := by
  have h := C2_synthesized_signature sampleWidget
    { name := "CreateEvent"
      doc := "Generate a Create Event widget.\n\nThis tool creates a Create Event widget with the provided data.\nThe input must conform to the widget's JSON schema."
      params :=
        [{ name := "description", kind := ParamKind.keywordOnly,
           default := some Json.null, annotation := FieldType.text },
         { name := "title", kind := ParamKind.keywordOnly,
           default := none, annotation := FieldType.text }]
      returnAnnotation := .widgetComponentBase
      invoke := fun eng kwargs => render_widget_definition eng sampleWidget kwargs }
    sampleModel rfl rfl
  exact ⟨_, rfl, h.2.1.trans rfl⟩

/-- C3: for a well-formed widget definition (string name, compiling
schema) synthesis succeeds; the synthesized tool's invocation is
exactly `render_widget_definition(widget_def, **kwargs)` unchanged;
a call whose arguments fail validation returns the compiler's
`ValidationError`, and a call with valid arguments returns the tree
the template engine builds. -/
theorem C3_tool_invocation_delegates (wd : WidgetDefinition) (n : String)
    (m : CompiledModel)
    (hname : wd.name.asString = some n)
    (hm : build_widget_model wd = .ok m) :
    ∃ tf : ToolFunction,
      _create_widget_tool_function wd = .ok tf ∧
      (∀ (eng : TemplateEngine) (kwargs : List (String × Json)),
          tf.invoke eng kwargs = render_widget_definition eng wd kwargs) ∧
      (∀ (eng : TemplateEngine) (kwargs : List (String × Json))
          (issues : List String),
          validateModel m kwargs = .error (.validationError issues) →
          render_widget_definition eng wd kwargs =
            .error (.validationError issues)) ∧
      (∀ (eng : TemplateEngine) (kwargs validated : List (String × Json))
          (tmplFn : List (String × Json) → Except String Json) (tree : Json),
          validateModel m kwargs = .ok validated →
          eng.fromFile wd.file_path = .ok tmplFn →
          tmplFn (setKey validated "undefined" Json.null) = .ok tree →
          render_widget_definition eng wd kwargs = .ok tree) := by
  refine ⟨{ name := to_camel_case (sanitize_tool_name n)
            doc := "Generate a " ++ n ++ " widget.\n\n" ++
              "This tool creates a " ++ n ++
              " widget with the provided data.\n" ++
              "The input must conform to the widget's JSON schema."
            params := m.fields.map (fun f =>
              { name := f.name
                kind := .keywordOnly
                default := if f.required then none else f.default
                annotation := f.type })
            returnAnnotation := .widgetComponentBase
            invoke := fun eng kwargs => render_widget_definition eng wd kwargs },
    ?_, ?_, ?_, ?_⟩
  · simp only [_create_widget_tool_function, hname, hm]
  · intro eng kwargs
    rfl
  · intro eng kwargs issues hval
    simp only [render_widget_definition, hm, bind, Except.bind, hval]
  · intro eng kwargs validated tmplFn tree hval heng htree
    simp only [render_widget_definition, hm, bind, Except.bind, hval, heng, htree]
/-- Witness for C3: calling the sample widget's tool path with valid
arguments returns the engine's tree, with an ill-typed `title` the
validation error naming `title`. -/
theorem C3_tool_invocation_delegates_witness :
    render_widget_definition cardEngine sampleWidget [("title", Json.str "X")] =
      .ok (Json.obj [("type", Json.str "Card")]) ∧
    render_widget_definition cardEngine sampleWidget [("title", Json.bool true)] =
      .error (.validationError ["title"]) := by
  rcases C3_tool_invocation_delegates sampleWidget "Create Event" sampleModel
    rfl rfl with ⟨tf, hok, hdel, hinv, hsucc⟩
  constructor
  · exact hsucc cardEngine [("title", Json.str "X")]
      [("description", Json.null), ("title", Json.str "X")]
      (fun _ => .ok (Json.obj [("type", Json.str "Card")]))
      (Json.obj [("type", Json.str "Card")]) rfl rfl rfl
  · exact hinv cardEngine [("title", Json.bool true)] ["title"] rfl

/-! ## Claim C5: what a template failure propagates as -/

/-- Counterexample for C5: `render_widget_definition` wraps nothing —
when the engine fails with `"boom"`, the caller receives exactly the
engine's own failure, whose message does not contain the originating
widget's name `"Create Event"`, and the very same error value is
produced for a widget with a different name; no `RenderError` carrying
the widget name exists anywhere on the path. -/
theorem C5_counterexample_failure_not_tagged :
    render_widget_definition boomEngine sampleWidget [("title", Json.str "X")] =
      .error (.engineFailure "boom") ∧
    occursIn "Create Event".data "boom".data = false ∧
    render_widget_definition boomEngine sampleRenamedWidget
      [("title", Json.str "X")] = .error (.engineFailure "boom") :=
  ⟨rfl, by decide, rfl⟩

/-- C5 as amended: for every widget whose model compiles and whose
arguments validate, a failure of template loading or of template
building propagates to the caller as the engine's own error, unchanged
and unwrapped — the renderer attaches nothing, in particular not the
widget's name. -/
theorem C5_amended_engine_error_propagates_unwrapped (wd : WidgetDefinition)
    (m : CompiledModel) (eng : TemplateEngine)
    (kwargs validated : List (String × Json)) (msg : String)
    (hm : build_widget_model wd = .ok m)
    (hval : validateModel m kwargs = .ok validated) :
    (eng.fromFile wd.file_path = .error msg →
      render_widget_definition eng wd kwargs = .error (.engineFailure msg)) ∧
    (∀ tmplFn, eng.fromFile wd.file_path = .ok tmplFn →
      tmplFn (setKey validated "undefined" Json.null) = .error msg →
      render_widget_definition eng wd kwargs = .error (.engineFailure msg)) := by
  constructor
  · intro heng
    simp only [render_widget_definition, hm, bind, Except.bind, hval, heng]
  · intro tmplFn heng htree
    simp only [render_widget_definition, hm, bind, Except.bind, hval, heng, htree]
/-- Witness for the amended C5 at the sample widget and a failing
engine. -/
theorem C5_amended_engine_error_propagates_unwrapped_witness :
    render_widget_definition boomEngine sampleWidget [("title", Json.str "X")] =
      .error (.engineFailure "boom") :=
  (C5_amended_engine_error_propagates_unwrapped sampleWidget sampleModel
    boomEngine [("title", Json.str "X")]
    [("description", Json.null), ("title", Json.str "X")] "boom" rfl rfl).1 rfl
